import Mathlib

/-!
Shallow embedding of the status-polling / confirmation logic of the
terraform-provider-flows repository (package `provider`).

The embedded functions follow the Go source:
* `WaitForAppInstallationReady` (app_installation resource file)
* `AppInstallationResource.WaitForDeleted`
* `ConfirmAppInstallation`
* `AppInstallationConfirmationResource.Create`
* `AppInstallationResource.Create` / `Update` (control flow around the
  create / update API calls, confirmation and the wait-for-ready poll)
* `waitForReadyValidator.ValidateResource` and
  `confirmWaitValidator.ValidateResource`

External API calls are modelled by caller-supplied results: a status
fetch is a `FetchResult` (either a status string or an error message),
a whole fetch sequence is a function `Nat → FetchResult` giving the
result of the i-th call (0-based).  Sleeps are counted rather than
performed.  Diagnostics (`AddError` / `AddWarning`) are collected as
`(summary, detail)` string pairs built from the exact format strings of
the source.
-/

namespace Flows

/-- Result of one `CallFlowsAPI` status fetch: the returned status
string, or the error message of a failed call. -/
inductive FetchResult where
  | ok (status : String)
  | err (msg : String)
deriving DecidableEq

/-- Status string of a successful fetch; `""` for an error (the Go
`status` variable keeps its previous value on the error path, which
returns immediately, so this default is never observed). -/
def statusOf : FetchResult → String
  | .ok s => s
  | .err _ => ""

/-- The loop bound `maxPollRetries = 60` from the source. -/
def maxPollRetries : Nat := 60

/-- The inter-attempt delay `pollRetryInterval = 5 * time.Second`,
in seconds. -/
def pollRetryIntervalSeconds : Nat := 5

/-- Classification of a status string by the `switch` statement of
`WaitForAppInstallationReady`. -/
inductive StatusClass where
  | ready
  | terminalFailure
  | transitional
  | unknown
deriving DecidableEq

/-- The `switch status` of `WaitForAppInstallationReady`, with the cases
in source order: `"ready"`; then `"failed", "drifted",
"draining_failed", "draining", "drained"`; then `"draft",
"in_progress"`; then `default`. -/
def classifyStatusForReady (s : String) : StatusClass :=
  if s == "ready" then .ready
  else if s == "failed" || s == "drifted" || s == "draining_failed"
      || s == "draining" || s == "drained" then .terminalFailure
  else if s == "draft" || s == "in_progress" then .transitional
  else .unknown

/-- Detail string of the `Client Error` diagnostic of the ready poll. -/
def readyClientErrMsg (m : String) : String :=
  "Unable to read app installation status, got error: " ++ m

/-- Detail string of the `App Installation Failed` diagnostic
(`App Installation %q reached status %q instead of "ready"`). -/
def readyFailMsg (id s : String) : String :=
  "App Installation \"" ++ id ++ "\" reached status \"" ++ s
    ++ "\" instead of \"ready\""

/-- Detail string of the `Unknown App Installation Status` diagnostic
(`App Installation %s has unknown status %q`). -/
def readyUnknownMsg (id s : String) : String :=
  "App Installation " ++ id ++ " has unknown status \"" ++ s ++ "\""

/-- Detail string of the `App Installation Confirmation Timeout`
diagnostic. -/
def readyTimeoutMsg (id s : String) : String :=
  "App Installation " ++ id
    ++ " did not reach a settled state within 5 minutes, last status was \""
    ++ s ++ "\""

/-- Tagged outcome of one run of `WaitForAppInstallationReady`. -/
inductive ReadyOutcome where
  | settled (status : String)
  | terminalFailure (status : String)
  | unknownStatus (status : String)
  | transportError (msg : String)
  | timedOut (lastStatus : String)
deriving DecidableEq

/-- Observable effect of one run of `WaitForAppInstallationReady`:
the tagged outcome, the Go return value, the number of fetch calls,
the number of sleeps, and the diagnostics added. -/
structure ReadyRun where
  result : ReadyOutcome
  retVal : String
  calls : Nat
  sleeps : Nat
  errs : List (String × String)
deriving DecidableEq

/-- The `for i := range maxPollRetries` loop of
`WaitForAppInstallationReady`: `i` is the attempt index, `remaining`
the attempts left, `status` the last observed status (the Go `status`
variable, zero-initialised to `""`). -/
def waitForReadyGo (id : String) (fetch : Nat → FetchResult) :
    Nat → Nat → String → ReadyRun
  | _, 0, status =>
    ⟨.timedOut status, "", 0, 0,
      [("App Installation Confirmation Timeout", readyTimeoutMsg id status)]⟩
  | i, remaining + 1, _ =>
    match fetch i with
    | .err m =>
      ⟨.transportError m, "", 1, 0, [("Client Error", readyClientErrMsg m)]⟩
    | .ok s =>
      match classifyStatusForReady s with
      | .ready => ⟨.settled s, s, 1, 0, []⟩
      | .terminalFailure =>
        ⟨.terminalFailure s, s, 1, 0,
          [("App Installation Failed", readyFailMsg id s)]⟩
      | .transitional =>
        let rest := waitForReadyGo id fetch (i + 1) remaining s
        ⟨rest.result, rest.retVal, rest.calls + 1, rest.sleeps + 1, rest.errs⟩
      | .unknown =>
        ⟨.unknownStatus s, s, 1, 0,
          [("Unknown App Installation Status", readyUnknownMsg id s)]⟩

/-- `WaitForAppInstallationReady(ctx, provider, id, dg)` over a fetch
sequence. -/
def WaitForAppInstallationReady (id : String) (fetch : Nat → FetchResult) :
    ReadyRun :=
  waitForReadyGo id fetch 0 maxPollRetries ""

/-- Detail string of the `Client Error` diagnostic of the deletion
waiter. -/
def deleteClientErrMsg (m : String) : String :=
  "Unable to read app installation, got error: " ++ m

/-- Detail string of the `App Installation Deletion Failed` diagnostic
(`App Installation %s reached status %q instead of being deleted`). -/
def deleteFailMsg (id s : String) : String :=
  "App Installation " ++ id ++ " reached status \"" ++ s
    ++ "\" instead of being deleted"

/-- Detail string of the `App Installation Deletion Timeout`
diagnostic. -/
def deleteTimeoutMsg (id s : String) : String :=
  "App Installation " ++ id
    ++ " did not reach a deleted state within 5 minutes, last status was \""
    ++ s ++ "\""

/-- Tagged outcome of one run of
`AppInstallationResource.WaitForDeleted`. -/
inductive DeleteOutcome where
  | deleted
  | clientError (msg : String)
  | unexpectedStatus (status : String)
  | timedOut (lastStatus : String)
deriving DecidableEq

/-- Observable effect of one run of `WaitForDeleted`. -/
structure DeleteRun where
  result : DeleteOutcome
  calls : Nat
  sleeps : Nat
  errs : List (String × String)
deriving DecidableEq

/-- The `for i := range maxPollRetries` loop of
`AppInstallationResource.WaitForDeleted`: a `"not found"` fetch error is
success, any other fetch error is a client error, a status other than
`"draining"` / `"drained"` is an unexpected-status failure, and
`"draining"` / `"drained"` sleep and continue. -/
def waitForDeletedGo (id : String) (fetch : Nat → FetchResult) :
    Nat → Nat → String → DeleteRun
  | _, 0, status =>
    ⟨.timedOut status, 0, 0,
      [("App Installation Deletion Timeout", deleteTimeoutMsg id status)]⟩
  | i, remaining + 1, _ =>
    match fetch i with
    | .err m =>
      if m == "not found" then ⟨.deleted, 1, 0, []⟩
      else ⟨.clientError m, 1, 0, [("Client Error", deleteClientErrMsg m)]⟩
    | .ok s =>
      if s != "draining" && s != "drained" then
        ⟨.unexpectedStatus s, 1, 0,
          [("App Installation Deletion Failed", deleteFailMsg id s)]⟩
      else
        let rest := waitForDeletedGo id fetch (i + 1) remaining s
        ⟨rest.result, rest.calls + 1, rest.sleeps + 1, rest.errs⟩

/-- `AppInstallationResource.WaitForDeleted(ctx, id, dg)` over a fetch
sequence. -/
def WaitForDeleted (id : String) (fetch : Nat → FetchResult) : DeleteRun :=
  waitForDeletedGo id fetch 0 maxPollRetries ""

/-- A fetch result that the ready poll treats as transitional
(`"draft"` or `"in_progress"`). -/
abbrev isTransitional (f : FetchResult) : Prop :=
  f = .ok "draft" ∨ f = .ok "in_progress"

/-- A fetch result that the deletion waiter keeps polling on
(`"draining"` or `"drained"`). -/
abbrev isDrainCont (f : FetchResult) : Prop :=
  f = .ok "draining" ∨ f = .ok "drained"

/-- Detail string of the confirm-action `Client Error` diagnostic
(`Unable to confirm app installation %q, got error: %s`). -/
def confirmFailMsg (id m : String) : String :=
  "Unable to confirm app installation \"" ++ id ++ "\", got error: " ++ m

/-- `ConfirmAppInstallation(ctx, provider, id, dg)`: issues the confirm
call (its result is the caller-supplied `confirmErr`, `none` = success)
and returns `true` unless the call failed with an error other than the
benign `"app installation is not a draft"`.  The second component is
the list of diagnostics added. -/
def ConfirmAppInstallation (id : String) (confirmErr : Option String) :
    Bool × List (String × String) :=
  match confirmErr with
  | some m =>
    if m != "app installation is not a draft" then
      (false, [("Client Error", confirmFailMsg id m)])
    else (true, [])
  | none => (true, [])

/-- Observable effect of `AppInstallationConfirmationResource.Create`:
the `status` attribute recorded in state (`none` when never written),
whether the resource was removed from state (`"not found"` on the
initial status fetch), the number of confirm calls, the number of
status polls after the confirm call, and the diagnostics added. -/
structure ConfirmationCreateRun where
  recordedStatus : Option String
  removed : Bool
  confirmCalls : Nat
  pollCalls : Nat
  errs : List (String × String)
deriving DecidableEq

/-- `AppInstallationConfirmationResource.Create`: fetch the current
status (`statusFetch`); on `"not found"` remove the resource, on any
other error report it; record the fetched status; if it is not
`"draft"` return (confirmation skipped); otherwise issue the confirm
call and, when `waitForReady` holds, run `WaitForAppInstallationReady`
over `pollFetch`, re-recording its returned status when non-empty. -/
def confirmationResourceCreate (id : String) (waitForReady : Bool)
    (statusFetch : FetchResult) (confirmErr : Option String)
    (pollFetch : Nat → FetchResult) : ConfirmationCreateRun :=
  match statusFetch with
  | .err m =>
    if m == "not found" then ⟨none, true, 0, 0, []⟩
    else
      ⟨none, false, 0, 0,
        [("Client Error",
          "Unable to read app installation status, got error: " ++ m)]⟩
  | .ok st =>
    if st != "draft" then ⟨some st, false, 0, 0, []⟩
    else
      match ConfirmAppInstallation id confirmErr with
      | (false, cerrs) => ⟨some st, false, 1, 0, cerrs⟩
      | (true, cerrs) =>
        if waitForReady then
          let run := WaitForAppInstallationReady id pollFetch
          ⟨if run.retVal != "" then some run.retVal else some st,
            false, 1, run.calls, cerrs ++ run.errs⟩
        else ⟨some st, false, 1, 0, cerrs⟩

/-- Observable effect of `AppInstallationResource.Create`: the `id`
recorded in state by `resp.State.Set` (`none` when never written), the
number of confirm calls, the number of wait-for-ready polls, and the
error and warning diagnostics added. -/
structure AppCreateRun where
  stateID : Option String
  confirmCalls : Nat
  pollCalls : Nat
  errs : List (String × String)
  warns : List (String × String)
deriving DecidableEq

/-- The `Invalid Configuration` warning added when `wait_for_ready` is
true but `confirm` is false. -/
def waitSkippedWarn : String × String :=
  ("Invalid Configuration",
    "\"wait_for_ready\" is true but \"confirm\" is false. Skipping wait for ready.")

/-- Tail of `AppInstallationResource.Create` / `Update` after the
mutation calls: `if data.WaitForReady.ValueBool() { if
!data.Confirm.ValueBool() { warn; return }; WaitForAppInstallationReady
}`.  `confirmCalls` carries the count accumulated so far. -/
def appCreateWaitPhase (newID : String) (confirmCalls : Nat)
    (confirm waitForReady : Bool) (pollFetch : Nat → FetchResult) :
    AppCreateRun :=
  if waitForReady then
    if !confirm then
      ⟨some newID, confirmCalls, 0, [], [waitSkippedWarn]⟩
    else
      let run := WaitForAppInstallationReady newID pollFetch
      ⟨some newID, confirmCalls, run.calls, run.errs, []⟩
  else ⟨some newID, confirmCalls, 0, [], []⟩

/-- Confirm step of `AppInstallationResource.Create`: `if
data.Confirm.ValueBool() { ok := ConfirmAppInstallation(...); if !ok {
return } }`, then the wait phase. -/
def appCreateConfirmPhase (newID : String) (confirm waitForReady : Bool)
    (confirmErr : Option String) (pollFetch : Nat → FetchResult) :
    AppCreateRun :=
  if confirm then
    match ConfirmAppInstallation newID confirmErr with
    | (false, cerrs) => ⟨some newID, 1, 0, cerrs, []⟩
    | (true, _) => appCreateWaitPhase newID 1 confirm waitForReady pollFetch
  else appCreateWaitPhase newID 0 confirm waitForReady pollFetch

/-- `AppInstallationResource.Create`: the create call (`createRes`,
error message or new id); on success the id is written to state at
once; then the config-update call when `config_fields` is non-empty
(`hasConfigFields`, failing with `configErr` when `some`); then the
confirm step and the wait phase. -/
def appInstallationCreate (hasConfigFields confirm waitForReady : Bool)
    (createRes : Except String String) (configErr : Option String)
    (confirmErr : Option String) (pollFetch : Nat → FetchResult) :
    AppCreateRun :=
  match createRes with
  | .error m =>
    ⟨none, 0, 0,
      [("Client Error", "Unable to create app installation, got error: " ++ m)],
      []⟩
  | .ok newID =>
    if hasConfigFields then
      match configErr with
      | some m =>
        ⟨some newID, 0, 0,
          [("Client Error",
            "Unable to update app installation config, got error: " ++ m)],
          []⟩
      | none => appCreateConfirmPhase newID confirm waitForReady confirmErr pollFetch
    else appCreateConfirmPhase newID confirm waitForReady confirmErr pollFetch

/-- Observable effect of `AppInstallationResource.Update`: diagnostics,
confirm calls and wait-for-ready polls. -/
structure AppUpdateRun where
  confirmCalls : Nat
  pollCalls : Nat
  errs : List (String × String)
  warns : List (String × String)
deriving DecidableEq

/-- `AppInstallationResource.Update`: each changed attribute group
(metadata, version, config) issues its update call whose result
(`Except` error message / returned `Draft` flag) updates `canConfirm`;
then `if canConfirm && config.Confirm.ValueBool()` the confirm step
runs; then the same wait phase as `Create`.  The config call is only
issued when the new `config_fields` value is non-empty. -/
def appInstallationUpdate (id : String)
    (nameChanged appChanged configChanged configNonEmpty : Bool)
    (confirm waitForReady : Bool)
    (metaRes versionRes configRes : Except String Bool)
    (confirmErr : Option String) (pollFetch : Nat → FetchResult) :
    AppUpdateRun :=
  match (if nameChanged then metaRes.map some else .ok none : Except String (Option Bool)) with
  | .error m =>
    ⟨0, 0,
      [("Client Error",
        "Unable to update app installation metadata, got error: " ++ m)], []⟩
  | .ok metaDraft =>
    match (if appChanged then versionRes.map some else .ok none :
        Except String (Option Bool)) with
    | .error m =>
      ⟨0, 0,
        [("Client Error",
          "Unable to update app installation version, got error: " ++ m)], []⟩
    | .ok versionDraft =>
      match (if configChanged && configNonEmpty then configRes.map some else .ok none :
          Except String (Option Bool)) with
      | .error m =>
        ⟨0, 0,
          [("Client Error",
            "Unable to update app installation config, got error: " ++ m)], []⟩
      | .ok configDraft =>
        let canConfirm :=
          (configDraft.getD (versionDraft.getD (metaDraft.getD false)))
        if canConfirm && confirm then
          match ConfirmAppInstallation id confirmErr with
          | (false, cerrs) => ⟨1, 0, cerrs, []⟩
          | (true, _) =>
            let tail := appCreateWaitPhase id 1 confirm waitForReady pollFetch
            ⟨1, tail.pollCalls, tail.errs, tail.warns⟩
        else
          let tail := appCreateWaitPhase id 0 confirm waitForReady pollFetch
          ⟨0, tail.pollCalls, tail.errs, tail.warns⟩

/-- Tri-state value of a Terraform `types.Bool` attribute. -/
inductive TriBool where
  | unknown
  | null
  | value (b : Bool)
deriving DecidableEq

/-- `ValueBool()`: the boolean value, `false` for null or unknown. -/
def TriBool.valueBool : TriBool → Bool
  | .value b => b
  | _ => false

/-- `IsUnknown()`. -/
def TriBool.isUnknown : TriBool → Bool
  | .unknown => true
  | _ => false

/-- `IsNull()`. -/
def TriBool.isNull : TriBool → Bool
  | .null => true
  | _ => false

/-- `waitForReadyValidator.ValidateResource` of the `app_installation`
resource: skip when either value is unknown, otherwise reject
`wait_for_ready = true` with `confirm = false` with an attribute error
on `wait_for_ready`.  Diagnostics are `(path, summary, detail)`. -/
def waitForReadyValidate (waitForReady confirm : TriBool) :
    List (String × String × String) :=
  if waitForReady.isUnknown || confirm.isUnknown then []
  else if waitForReady.valueBool && !confirm.valueBool then
    [("wait_for_ready", "Invalid configuration",
      "\"wait_for_ready\" can only be true when \"confirm\" is true.")]
  else []

/-- `confirmWaitValidator.ValidateResource` of the older
`app_installation` resource variant: skip when either value is unknown
or null, otherwise reject `wait_for_confirm = true` with
`confirm = false` with an attribute error on `wait_for_confirm`. -/
def confirmWaitValidate (waitForConfirm confirm : TriBool) :
    List (String × String × String) :=
  if waitForConfirm.isUnknown || waitForConfirm.isNull
      || confirm.isUnknown || confirm.isNull then []
  else if waitForConfirm.valueBool && !confirm.valueBool then
    [("wait_for_confirm", "Invalid configuration",
      "`wait_for_confirm` can only be true when `confirm` is true.")]
  else []

/-- A status string in the recognized wire vocabulary. -/
def recognizedStatus (s : String) : Bool :=
  s == "draft" || s == "in_progress" || s == "ready" || s == "failed"
    || s == "drifted" || s == "draining" || s == "draining_failed"
    || s == "drained"

/-- A confirm-call result the orchestration treats as fatal: an error
other than the benign `"app installation is not a draft"`. -/
def confirmFatal : Option String → Bool
  | some m => m != "app installation is not a draft"
  | none => false

/-- Last observed status after `n` polls starting at index `i`, given
the value `st` of the status variable beforehand. -/
def lastSeen (fetch : Nat → FetchResult) (i n : Nat) (st : String) : String :=
  match n with
  | 0 => st
  | n + 1 => statusOf (fetch (i + n))

example :
    WaitForAppInstallationReady "a" (fun _ => .ok "ready") =
      ⟨.settled "ready", "ready", 1, 0, []⟩ := by decide

example :
    WaitForDeleted "a" (fun i => if i = 0 then .ok "draining" else .err "not found") =
      ⟨.deleted, 2, 1, []⟩ := by decide

example :
    (WaitForDeleted "a" (fun _ => .ok "drained")).result = .timedOut "drained" := by
  decide

/-- Shifting the last-seen status one poll to the right. -/
theorem lastSeen_shift (fetch : Nat → FetchResult) (i n : Nat) (st s : String)
    (hf : fetch i = .ok s) :
    lastSeen fetch (i + 1) n s = lastSeen fetch i (n + 1) st := by
  cases n with
  | zero => simp [lastSeen, hf, statusOf]
  | succ m => simp [lastSeen, Nat.add_assoc, Nat.add_comm 1 m]

/-- A transitional status is classified `transitional`. -/
theorem classify_of_isTransitional {f : FetchResult} (h : isTransitional f) :
    ∃ s, f = .ok s ∧ classifyStatusForReady s = .transitional := by
  rcases h with h | h <;> exact ⟨_, h, rfl⟩

/-- One transitional iteration of the ready poll wraps the rest of the
loop, adding one call and one sleep. -/
theorem waitForReadyGo_transitional (id : String) (fetch : Nat → FetchResult)
    (i r : Nat) (st s : String) (hc : classifyStatusForReady s = .transitional)
    (hf : fetch i = .ok s) :
    waitForReadyGo id fetch i (r + 1) st =
      ⟨(waitForReadyGo id fetch (i + 1) r s).result,
       (waitForReadyGo id fetch (i + 1) r s).retVal,
       (waitForReadyGo id fetch (i + 1) r s).calls + 1,
       (waitForReadyGo id fetch (i + 1) r s).sleeps + 1,
       (waitForReadyGo id fetch (i + 1) r s).errs⟩ := by
  simp [waitForReadyGo, hf, hc]

/-- Skipping a transitional run-up of `n` polls in the ready loop. -/
theorem waitForReadyGo_skip (id : String) (fetch : Nat → FetchResult) :
    ∀ (n i r : Nat) (st : String), n ≤ r →
      (∀ j, j < n → isTransitional (fetch (i + j))) →
      waitForReadyGo id fetch i r st =
        ⟨(waitForReadyGo id fetch (i + n) (r - n) (lastSeen fetch i n st)).result,
         (waitForReadyGo id fetch (i + n) (r - n) (lastSeen fetch i n st)).retVal,
         (waitForReadyGo id fetch (i + n) (r - n) (lastSeen fetch i n st)).calls + n,
         (waitForReadyGo id fetch (i + n) (r - n) (lastSeen fetch i n st)).sleeps + n,
         (waitForReadyGo id fetch (i + n) (r - n) (lastSeen fetch i n st)).errs⟩ := by
  intro n
  induction n with
  | zero =>
    intro i r st _ _
    simp [lastSeen]
  | succ n ih =>
    intro i r st hn htrans
    obtain ⟨r', rfl⟩ : ∃ r', r = r' + 1 := ⟨r - 1, by omega⟩
    obtain ⟨s, hf, hc⟩ := classify_of_isTransitional (htrans 0 (Nat.succ_pos n))
    rw [Nat.add_zero] at hf
    rw [waitForReadyGo_transitional id fetch i r' st s hc hf]
    rw [ih (i + 1) r' s (by omega) (fun j hj => by
      have h1 := htrans (j + 1) (by omega)
      have h2 : i + 1 + j = i + (j + 1) := by omega
      rwa [h2])]
    rw [lastSeen_shift fetch i n st s hf]
    have hi : i + 1 + n = i + (n + 1) := by omega
    have hr : r' - n = r' + 1 - (n + 1) := by omega
    rw [hi, hr]
    congr 1

/-- The ready poll never makes more fetch calls than it has attempts
left. -/
theorem waitForReadyGo_calls_le (id : String) (fetch : Nat → FetchResult) :
    ∀ (r i : Nat) (st : String), (waitForReadyGo id fetch i r st).calls ≤ r := by
  intro r
  induction r with
  | zero => intro i st; simp [waitForReadyGo]
  | succ r ih =>
    intro i st
    rw [waitForReadyGo]
    cases hf : fetch i with
    | err m => simp
    | ok s =>
      cases hc : classifyStatusForReady s <;> simp [hc]
      exact ih (i + 1) s

/-- A status the deletion waiter keeps polling on fails its exit test. -/
theorem deleteTest_of_isDrainCont {f : FetchResult} (h : isDrainCont f) :
    ∃ s, f = .ok s ∧ (s != "draining" && s != "drained") = false := by
  rcases h with h | h <;> exact ⟨_, h, rfl⟩

/-- One draining/drained iteration of the deletion waiter wraps the rest
of the loop, adding one call and one sleep. -/
theorem waitForDeletedGo_cont (id : String) (fetch : Nat → FetchResult)
    (i r : Nat) (st s : String)
    (hc : (s != "draining" && s != "drained") = false)
    (hf : fetch i = .ok s) :
    waitForDeletedGo id fetch i (r + 1) st =
      ⟨(waitForDeletedGo id fetch (i + 1) r s).result,
       (waitForDeletedGo id fetch (i + 1) r s).calls + 1,
       (waitForDeletedGo id fetch (i + 1) r s).sleeps + 1,
       (waitForDeletedGo id fetch (i + 1) r s).errs⟩ := by
  simp [waitForDeletedGo, hf, hc]

/-- Skipping a draining/drained run-up of `n` polls in the deletion
waiter. -/
theorem waitForDeletedGo_skip (id : String) (fetch : Nat → FetchResult) :
    ∀ (n i r : Nat) (st : String), n ≤ r →
      (∀ j, j < n → isDrainCont (fetch (i + j))) →
      waitForDeletedGo id fetch i r st =
        ⟨(waitForDeletedGo id fetch (i + n) (r - n) (lastSeen fetch i n st)).result,
         (waitForDeletedGo id fetch (i + n) (r - n) (lastSeen fetch i n st)).calls + n,
         (waitForDeletedGo id fetch (i + n) (r - n) (lastSeen fetch i n st)).sleeps + n,
         (waitForDeletedGo id fetch (i + n) (r - n) (lastSeen fetch i n st)).errs⟩ := by
  intro n
  induction n with
  | zero =>
    intro i r st _ _
    simp [lastSeen]
  | succ n ih =>
    intro i r st hn hcont
    obtain ⟨r', rfl⟩ : ∃ r', r = r' + 1 := ⟨r - 1, by omega⟩
    obtain ⟨s, hf, hc⟩ := deleteTest_of_isDrainCont (hcont 0 (Nat.succ_pos n))
    rw [Nat.add_zero] at hf
    rw [waitForDeletedGo_cont id fetch i r' st s hc hf]
    rw [ih (i + 1) r' s (by omega) (fun j hj => by
      have h1 := hcont (j + 1) (by omega)
      have h2 : i + 1 + j = i + (j + 1) := by omega
      rwa [h2])]
    rw [lastSeen_shift fetch i n st s hf]
    have hi : i + 1 + n = i + (n + 1) := by omega
    have hr : r' - n = r' + 1 - (n + 1) := by omega
    rw [hi, hr]
    congr 1

/-- With at least one attempt left, the deletion waiter makes at least
one fetch call. -/
theorem waitForDeletedGo_calls_pos (id : String) (fetch : Nat → FetchResult)
    (i r : Nat) (st : String) :
    1 ≤ (waitForDeletedGo id fetch i (r + 1) st).calls := by
  rw [waitForDeletedGo]
  cases fetch i with
  | err m => cases h : (m == "not found") <;> simp [h]
  | ok s => cases h : (s != "draining" && s != "drained") <;> simp [h]

/-- A status string outside the recognized vocabulary is classified
`unknown`. -/
theorem classify_unknown_of_not_recognized {s : String}
    (h : recognizedStatus s = false) :
    classifyStatusForReady s = .unknown := by
  unfold recognizedStatus at h
  simp only [Bool.or_eq_false_iff] at h
  obtain ⟨⟨⟨⟨⟨⟨⟨h1, h2⟩, h3⟩, h4⟩, h5⟩, h6⟩, h7⟩, h8⟩ := h
  simp [classifyStatusForReady, h1, h2, h3, h4, h5, h6, h7, h8]

/-- A fatal confirm-call result makes `ConfirmAppInstallation` report
and return `false`. -/
theorem ConfirmAppInstallation_fatal (id : String) (ce : Option String)
    (h : confirmFatal ce = true) :
    ∃ m, ce = some m ∧
      ConfirmAppInstallation id ce =
        (false, [("Client Error", confirmFailMsg id m)]) := by
  cases ce with
  | none => simp [confirmFatal] at h
  | some m =>
    simp only [confirmFatal] at h
    exact ⟨m, rfl, by simp [ConfirmAppInstallation, h]⟩

/-- A non-fatal confirm-call result (success or the benign error) makes
`ConfirmAppInstallation` return `true` with no diagnostics. -/
theorem ConfirmAppInstallation_ok (id : String) (ce : Option String)
    (h : confirmFatal ce = false) :
    ConfirmAppInstallation id ce = (true, []) := by
  cases ce with
  | none => rfl
  | some m =>
    simp only [confirmFatal] at h
    simp [ConfirmAppInstallation, h]

/-- The wait phase never erases the id recorded in state. -/
theorem appCreateWaitPhase_stateID (nid : String) (cc : Nat)
    (c w : Bool) (pf : Nat → FetchResult) :
    (appCreateWaitPhase nid cc c w pf).stateID = some nid := by
  cases w <;> cases c <;> simp [appCreateWaitPhase]

/-- The confirm-and-wait tail of Create never erases the id recorded in
state. -/
theorem appCreateConfirmPhase_stateID (nid : String) (c w : Bool)
    (ce : Option String) (pf : Nat → FetchResult) :
    (appCreateConfirmPhase nid c w ce pf).stateID = some nid := by
  cases c with
  | false => simp [appCreateConfirmPhase, appCreateWaitPhase_stateID]
  | true =>
    unfold appCreateConfirmPhase
    cases hc : ConfirmAppInstallation nid ce with
    | mk ok cerrs =>
      cases ok <;> simp [appCreateWaitPhase_stateID]

/-- With `confirm = false` the confirm step is skipped entirely. -/
theorem appCreateConfirmPhase_noconfirm (nid : String) (w : Bool)
    (ce : Option String) (pf : Nat → FetchResult) :
    appCreateConfirmPhase nid false w ce pf =
      appCreateWaitPhase nid 0 false w pf := by
  simp [appCreateConfirmPhase]

/-- Wait phase behaviour under `confirm = false`: no poll runs, no
error is added, and when `wait_for_ready` is set the skip warning is
emitted. -/
theorem appCreateWaitPhase_noconfirm_props (nid : String) (cc : Nat)
    (w : Bool) (pf : Nat → FetchResult) :
    (appCreateWaitPhase nid cc false w pf).pollCalls = 0
    ∧ (appCreateWaitPhase nid cc false w pf).errs = []
    ∧ (w = true →
        (appCreateWaitPhase nid cc false w pf).warns = [waitSkippedWarn]) := by
  cases w <;> simp [appCreateWaitPhase]

/-- Behaviour of the confirm-and-wait tail of Create: the id stays in
state, a fatal confirm error is reported, and a non-fatal confirm under
`confirm = wait_for_ready = true` surfaces exactly the poll's
diagnostics. -/
theorem appCreateConfirmPhase_props (nid : String) (c w : Bool)
    (ce : Option String) (pf : Nat → FetchResult) :
    (appCreateConfirmPhase nid c w ce pf).stateID = some nid
    ∧ (c = true → confirmFatal ce = true →
        (appCreateConfirmPhase nid c w ce pf).errs ≠ [])
    ∧ (confirmFatal ce = false → c = true → w = true →
        (appCreateConfirmPhase nid c w ce pf).errs =
          (WaitForAppInstallationReady nid pf).errs) := by
  refine ⟨appCreateConfirmPhase_stateID nid c w ce pf, ?_, ?_⟩
  · rintro rfl hfatal
    obtain ⟨m, rfl, hc⟩ := ConfirmAppInstallation_fatal nid ce hfatal
    simp [appCreateConfirmPhase, hc]
  · rintro hok rfl rfl
    simp [appCreateConfirmPhase, ConfirmAppInstallation_ok nid ce hok,
      appCreateWaitPhase]

/-- Claim C1 as stated is false on the code: under the deletion policy
a fetched `"drained"` status does not terminate the loop successfully —
on a sequence that always returns `"drained"` the waiter polls all 60
attempts, times out with an error diagnostic, and never reports
success. -/
theorem C1_counterexample :
    (WaitForDeleted "inst-1" (fun _ => .ok "drained")).result =
        DeleteOutcome.timedOut "drained"
      ∧ (WaitForDeleted "inst-1" (fun _ => .ok "drained")).result ≠
        DeleteOutcome.deleted
      ∧ (WaitForDeleted "inst-1" (fun _ => .ok "drained")).calls = 60
      ∧ (WaitForDeleted "inst-1" (fun _ => .ok "drained")).errs ≠ [] := by
  decide

/-- Claim C1 (amended): under the confirmation (wait-for-ready) policy
every fetched status in `{failed, drifted, draining_failed, draining,
drained}` is classified as a terminal failure, terminating the poll
loop with a failure diagnostic naming that status; under the deletion
policy both `draining` and `drained` are classified as transitional
(polling continues), and the loop terminates successfully only when a
fetch errors with the `"not found"` sentinel. -/
theorem C1_policy_table :
    (∀ s : String,
      (s = "failed" ∨ s = "drifted" ∨ s = "draining_failed"
        ∨ s = "draining" ∨ s = "drained") →
      classifyStatusForReady s = .terminalFailure ∧
      ∀ (id : String) (fetch : Nat → FetchResult), fetch 0 = .ok s →
        WaitForAppInstallationReady id fetch =
          ⟨.terminalFailure s, s, 1, 0,
            [("App Installation Failed", readyFailMsg id s)]⟩)
    ∧ (∀ s : String, (s = "draining" ∨ s = "drained") →
      ∀ (id : String) (fetch : Nat → FetchResult), fetch 0 = .ok s →
        2 ≤ (WaitForDeleted id fetch).calls ∧
        (fetch 1 = .err "not found" →
          WaitForDeleted id fetch = ⟨.deleted, 2, 1, []⟩)) := by
  constructor
  · intro s hs
    have hc : classifyStatusForReady s = .terminalFailure := by
      rcases hs with rfl | rfl | rfl | rfl | rfl <;> rfl
    refine ⟨hc, fun id fetch hf => ?_⟩
    show waitForReadyGo id fetch 0 (59 + 1) "" = _
    rw [waitForReadyGo]
    simp [hf, hc]
  · intro s hs id fetch hf
    have hc : (s != "draining" && s != "drained") = false := by
      rcases hs with rfl | rfl <;> rfl
    have hstep :
        WaitForDeleted id fetch =
          ⟨(waitForDeletedGo id fetch 1 59 s).result,
           (waitForDeletedGo id fetch 1 59 s).calls + 1,
           (waitForDeletedGo id fetch 1 59 s).sleeps + 1,
           (waitForDeletedGo id fetch 1 59 s).errs⟩ := by
      show waitForDeletedGo id fetch 0 (59 + 1) "" = _
      rw [waitForDeletedGo_cont id fetch 0 59 "" s hc hf]
    constructor
    · rw [hstep]
      have := waitForDeletedGo_calls_pos id fetch 1 58 s
      simpa using Nat.add_le_add_right this 1
    · intro hnf
      rw [hstep]
      show _ = (⟨DeleteOutcome.deleted, 1 + 1, 0 + 1, []⟩ : DeleteRun)
      have h2 : waitForDeletedGo id fetch 1 59 s = ⟨.deleted, 1, 0, []⟩ := by
        show waitForDeletedGo id fetch 1 (58 + 1) s = _
        rw [waitForDeletedGo]
        simp [hnf]
      rw [h2]

/-- Witness for C1: concrete instances of both policies. -/
theorem C1_policy_table_witness :
    classifyStatusForReady "failed" = .terminalFailure ∧
    WaitForAppInstallationReady "inst-1" (fun _ => .ok "failed") =
      ⟨.terminalFailure "failed", "failed", 1, 0,
        [("App Installation Failed", readyFailMsg "inst-1" "failed")]⟩ ∧
    WaitForDeleted "inst-1"
        (fun j => if j = 0 then .ok "drained" else .err "not found") =
      ⟨.deleted, 2, 1, []⟩ :=
  ⟨(C1_policy_table.1 "failed" (Or.inl rfl)).1,
   (C1_policy_table.1 "failed" (Or.inl rfl)).2 "inst-1" _ rfl,
   (C1_policy_table.2 "drained" (Or.inr rfl) "inst-1"
      (fun j => if j = 0 then .ok "drained" else .err "not found") rfl).2 rfl⟩

/-- Claim C2: a fetch sequence whose first `n` results are transitional
(`draft` or `in_progress`) and whose `(n+1)`-th result is `ready`, with
`n + 1 ≤ 60`, makes exactly `n + 1` fetch calls, sleeps exactly `n`
times, and settles successfully with final status `ready`. -/
theorem C2_transitional_then_ready :
    ∀ (id : String) (fetch : Nat → FetchResult) (n : Nat),
      n + 1 ≤ 60 → (∀ j, j < n → isTransitional (fetch j)) →
      fetch n = .ok "ready" →
      WaitForAppInstallationReady id fetch =
        ⟨.settled "ready", "ready", n + 1, n, []⟩ := by
  intro id fetch n hn htrans hready
  unfold WaitForAppInstallationReady maxPollRetries
  rw [waitForReadyGo_skip id fetch n 0 60 "" (by omega)
    (fun j hj => by simpa using htrans j hj)]
  obtain ⟨m, hm⟩ : ∃ m, 60 - n = m + 1 := ⟨60 - n - 1, by omega⟩
  have hstep : waitForReadyGo id fetch (0 + n) (60 - n) (lastSeen fetch 0 n "") =
      ⟨.settled "ready", "ready", 1, 0, []⟩ := by
    rw [Nat.zero_add, hm, waitForReadyGo]
    simp [hready, classifyStatusForReady]
  rw [hstep]
  simp [Nat.add_comm]

/-- Witness for C2: the spec's four-step sequence
`["draft", "in_progress", "in_progress", "ready"]`. -/
theorem C2_transitional_then_ready_witness :
    WaitForAppInstallationReady "inst-1"
        (fun j => .ok (["draft", "in_progress", "in_progress", "ready"].getD j "ready")) =
      ⟨.settled "ready", "ready", 4, 3, []⟩ :=
  C2_transitional_then_ready "inst-1" _ 3 (by decide) (by decide) (by decide)

/-- Claim C3: the ready poll makes at most 60 fetch calls on any fetch
sequence, and when the first 60 results are all transitional it makes
exactly 60 calls and times out reporting the last observed status. -/
theorem C3_retry_budget :
    (∀ (id : String) (fetch : Nat → FetchResult),
      (WaitForAppInstallationReady id fetch).calls ≤ 60)
    ∧ (∀ (id : String) (fetch : Nat → FetchResult),
      (∀ j, j < 60 → isTransitional (fetch j)) →
      WaitForAppInstallationReady id fetch =
        ⟨.timedOut (statusOf (fetch 59)), "", 60, 60,
          [("App Installation Confirmation Timeout",
            readyTimeoutMsg id (statusOf (fetch 59)))]⟩) := by
  constructor
  · intro id fetch
    exact waitForReadyGo_calls_le id fetch 60 0 ""
  · intro id fetch htrans
    unfold WaitForAppInstallationReady maxPollRetries
    rw [waitForReadyGo_skip id fetch 60 0 60 "" (le_refl 60)
      (fun j hj => by simpa using htrans j hj)]
    simp [waitForReadyGo, lastSeen]

/-- Witness for C3: a sequence that never leaves `in_progress`. -/
theorem C3_retry_budget_witness :
    WaitForAppInstallationReady "inst-1" (fun _ => .ok "in_progress") =
      ⟨.timedOut "in_progress", "", 60, 60,
        [("App Installation Confirmation Timeout",
          readyTimeoutMsg "inst-1" "in_progress")]⟩ :=
  C3_retry_budget.2 "inst-1" (fun _ => .ok "in_progress") (by decide)

/-- Claim C4: non-transitional results are never retried — after a
transitional run-up of `n` attempts (`n + 1 ≤ 60`), a transport error
or an unrecognized status string on attempt `n + 1` terminates the loop
at that attempt, with exactly `n + 1` fetch calls and `n` sleeps (no
sleep after the final attempt). -/
theorem C4_no_retry_nontransitional :
    (∀ (id m : String) (fetch : Nat → FetchResult) (n : Nat),
      n + 1 ≤ 60 → (∀ j, j < n → isTransitional (fetch j)) →
      fetch n = .err m →
      WaitForAppInstallationReady id fetch =
        ⟨.transportError m, "", n + 1, n,
          [("Client Error", readyClientErrMsg m)]⟩)
    ∧ (∀ (id s : String) (fetch : Nat → FetchResult) (n : Nat),
      n + 1 ≤ 60 → (∀ j, j < n → isTransitional (fetch j)) →
      fetch n = .ok s → recognizedStatus s = false →
      WaitForAppInstallationReady id fetch =
        ⟨.unknownStatus s, s, n + 1, n,
          [("Unknown App Installation Status", readyUnknownMsg id s)]⟩) := by
  constructor
  · intro id m fetch n hn htrans herr
    unfold WaitForAppInstallationReady maxPollRetries
    rw [waitForReadyGo_skip id fetch n 0 60 "" (by omega)
      (fun j hj => by simpa using htrans j hj)]
    obtain ⟨k, hk⟩ : ∃ k, 60 - n = k + 1 := ⟨60 - n - 1, by omega⟩
    have hstep : waitForReadyGo id fetch (0 + n) (60 - n) (lastSeen fetch 0 n "") =
        ⟨.transportError m, "", 1, 0, [("Client Error", readyClientErrMsg m)]⟩ := by
      rw [Nat.zero_add, hk, waitForReadyGo]
      simp [herr]
    rw [hstep]
    simp [Nat.add_comm]
  · intro id s fetch n hn htrans hs hunrec
    have hc : classifyStatusForReady s = .unknown :=
      classify_unknown_of_not_recognized hunrec
    unfold WaitForAppInstallationReady maxPollRetries
    rw [waitForReadyGo_skip id fetch n 0 60 "" (by omega)
      (fun j hj => by simpa using htrans j hj)]
    obtain ⟨k, hk⟩ : ∃ k, 60 - n = k + 1 := ⟨60 - n - 1, by omega⟩
    have hstep : waitForReadyGo id fetch (0 + n) (60 - n) (lastSeen fetch 0 n "") =
        ⟨.unknownStatus s, s, 1, 0,
          [("Unknown App Installation Status", readyUnknownMsg id s)]⟩ := by
      rw [Nat.zero_add, hk, waitForReadyGo]
      simp [hs, hc]
    rw [hstep]
    simp [Nat.add_comm]

/-- Witness for C4: one transitional attempt followed by the spec's
`"bogus_status"`. -/
theorem C4_no_retry_nontransitional_witness :
    WaitForAppInstallationReady "inst-1"
        (fun j => if j = 0 then .ok "in_progress" else .ok "bogus_status") =
      ⟨.unknownStatus "bogus_status", "bogus_status", 2, 1,
        [("Unknown App Installation Status",
          readyUnknownMsg "inst-1" "bogus_status")]⟩ :=
  C4_no_retry_nontransitional.2 "inst-1" "bogus_status" _ 1
    (by decide) (by decide) (by decide) (by decide)

/-- Claim C5: a confirmation Create whose initial status fetch returns
anything other than `draft` issues no confirm call, records the fetched
status, and returns at once with no polling and no diagnostics —
regardless of the `wait_for_ready` flag. -/
theorem C5_confirmation_skip_non_draft :
    ∀ (id : String) (waitForReady : Bool) (st : String)
      (confirmErr : Option String) (pollFetch : Nat → FetchResult),
      st ≠ "draft" →
      confirmationResourceCreate id waitForReady (.ok st) confirmErr pollFetch =
        ⟨some st, false, 0, 0, []⟩ := by
  intro id w st ce pf h
  have hb : (st != "draft") = true := by simpa using h
  simp [confirmationResourceCreate, hb]

/-- Witness for C5: initial status `ready` with `wait_for_ready`
true. -/
theorem C5_confirmation_skip_non_draft_witness :
    confirmationResourceCreate "inst-1" true (.ok "ready") none
        (fun _ => .ok "ready") =
      ⟨some "ready", false, 0, 0, []⟩ :=
  C5_confirmation_skip_non_draft "inst-1" true "ready" none _ (by decide)

/-- Claim C6: a confirmation Create with `wait_for_ready = false`,
initial status `draft` and a successful confirm call makes exactly one
confirm call, performs zero status polls after it, and records the
pre-confirm status `draft` without re-fetching; and every confirmation
Create invocation issues at most one confirm call. -/
theorem C6_confirm_once_no_refetch :
    (∀ (id : String) (pollFetch : Nat → FetchResult),
      confirmationResourceCreate id false (.ok "draft") none pollFetch =
        ⟨some "draft", false, 1, 0, []⟩)
    ∧ (∀ (id : String) (waitForReady : Bool) (statusFetch : FetchResult)
        (confirmErr : Option String) (pollFetch : Nat → FetchResult),
        (confirmationResourceCreate id waitForReady statusFetch confirmErr
          pollFetch).confirmCalls ≤ 1) := by
  constructor
  · intro id pf
    rfl
  · intro id w sf ce pf
    unfold confirmationResourceCreate
    cases sf with
    | err m => cases h : (m == "not found") <;> simp [h]
    | ok st =>
      cases h : (st != "draft") with
      | true => simp [h]
      | false =>
        simp only [h]
        cases hc : ConfirmAppInstallation id ce with
        | mk ok cerrs =>
          cases ok <;> cases w <;> simp

/-- Claim C7: the confirm action's error is fatal (reported, aborting
the invocation) unless it is exactly `"app installation is not a
draft"`, which is swallowed, leaving the invocation to proceed exactly
as on success. -/
theorem C7_benign_confirm_error :
    ∀ id m : String,
      (m ≠ "app installation is not a draft" →
        ConfirmAppInstallation id (some m) =
          (false, [("Client Error", confirmFailMsg id m)]))
      ∧ ConfirmAppInstallation id (some "app installation is not a draft") =
          (true, [])
      ∧ ConfirmAppInstallation id none = (true, []) := by
  intro id m
  refine ⟨fun h => ?_, rfl, rfl⟩
  have hb : (m != "app installation is not a draft") = true := by simpa using h
  simp [ConfirmAppInstallation, hb]

/-- Witness for C7: a non-benign error message. -/
theorem C7_benign_confirm_error_witness :
    ConfirmAppInstallation "inst-1" (some "boom") =
      (false, [("Client Error", confirmFailMsg "inst-1" "boom")]) :=
  (C7_benign_confirm_error "inst-1" "boom").1 (by decide)

/-- Claim C8: in the deletion waiter, after a run-up of `k` attempts
returning `draining`/`drained` (`k < 60`): a `"not found"` fetch error
on attempt `k + 1` terminates as success with exactly `k + 1` calls; a
status other than `draining`/`drained` on attempt `k + 1` terminates
with an unexpected-status failure at exactly `k + 1` calls; and 60
straight `draining`/`drained` results time out reporting the last
observed status. -/
theorem C8_deletion_waiter :
    (∀ (id : String) (fetch : Nat → FetchResult) (k : Nat), k < 60 →
      (∀ j, j < k → isDrainCont (fetch j)) → fetch k = .err "not found" →
      WaitForDeleted id fetch = ⟨.deleted, k + 1, k, []⟩)
    ∧ (∀ (id s : String) (fetch : Nat → FetchResult) (k : Nat), k < 60 →
      (∀ j, j < k → isDrainCont (fetch j)) → fetch k = .ok s →
      s ≠ "draining" → s ≠ "drained" →
      WaitForDeleted id fetch =
        ⟨.unexpectedStatus s, k + 1, k,
          [("App Installation Deletion Failed", deleteFailMsg id s)]⟩)
    ∧ (∀ (id : String) (fetch : Nat → FetchResult),
      (∀ j, j < 60 → isDrainCont (fetch j)) →
      WaitForDeleted id fetch =
        ⟨.timedOut (statusOf (fetch 59)), 60, 60,
          [("App Installation Deletion Timeout",
            deleteTimeoutMsg id (statusOf (fetch 59)))]⟩) := by
  refine ⟨?_, ?_, ?_⟩
  · intro id fetch k hk hcont hnf
    unfold WaitForDeleted maxPollRetries
    rw [waitForDeletedGo_skip id fetch k 0 60 "" (by omega)
      (fun j hj => by simpa using hcont j hj)]
    obtain ⟨m, hm⟩ : ∃ m, 60 - k = m + 1 := ⟨60 - k - 1, by omega⟩
    have hstep : waitForDeletedGo id fetch (0 + k) (60 - k) (lastSeen fetch 0 k "") =
        ⟨.deleted, 1, 0, []⟩ := by
      rw [Nat.zero_add, hm, waitForDeletedGo]
      simp [hnf]
    rw [hstep]
    simp [Nat.add_comm]
  · intro id s fetch k hk hcont hs hs1 hs2
    have hb : (s != "draining" && s != "drained") = true := by
      simp [hs1, hs2]
    unfold WaitForDeleted maxPollRetries
    rw [waitForDeletedGo_skip id fetch k 0 60 "" (by omega)
      (fun j hj => by simpa using hcont j hj)]
    obtain ⟨m, hm⟩ : ∃ m, 60 - k = m + 1 := ⟨60 - k - 1, by omega⟩
    have hstep : waitForDeletedGo id fetch (0 + k) (60 - k) (lastSeen fetch 0 k "") =
        ⟨.unexpectedStatus s, 1, 0,
          [("App Installation Deletion Failed", deleteFailMsg id s)]⟩ := by
      rw [Nat.zero_add, hm, waitForDeletedGo]
      simp [hs, hb]
    rw [hstep]
    simp [Nat.add_comm]
  · intro id fetch hcont
    unfold WaitForDeleted maxPollRetries
    rw [waitForDeletedGo_skip id fetch 60 0 60 "" (le_refl 60)
      (fun j hj => by simpa using hcont j hj)]
    simp [waitForDeletedGo, lastSeen]

/-- Witness for C8: the spec's two concrete sequences, plus an
always-draining timeout. -/
theorem C8_deletion_waiter_witness :
    WaitForDeleted "inst-1"
        (fun j => if j = 0 then .ok "draining" else .err "not found") =
      ⟨.deleted, 2, 1, []⟩
    ∧ WaitForDeleted "inst-1" (fun _ => .ok "ready") =
      ⟨.unexpectedStatus "ready", 1, 0,
        [("App Installation Deletion Failed", deleteFailMsg "inst-1" "ready")]⟩
    ∧ WaitForDeleted "inst-1" (fun _ => .ok "draining") =
      ⟨.timedOut "draining", 60, 60,
        [("App Installation Deletion Timeout",
          deleteTimeoutMsg "inst-1" "draining")]⟩ :=
  ⟨C8_deletion_waiter.1 "inst-1" _ 1 (by decide) (by decide) (by decide),
   C8_deletion_waiter.2.1 "inst-1" "ready" _ 0 (by decide) (by decide)
     (by decide) (by decide) (by decide),
   C8_deletion_waiter.2.2 "inst-1" (fun _ => .ok "draining") (by decide)⟩

/-- Claim C9: once the create call has succeeded with an id, that id
stays recorded in state on every path of `AppInstallationResource.Create`;
a failing config update or a fatal confirm error ends the operation
with a reported diagnostic, and a failing wait-for-ready surfaces
exactly the poll's diagnostics — none of these paths discard the
recorded id. -/
theorem C9_partial_state_preserved :
    ∀ (hasConfigFields confirm waitForReady : Bool) (createID : String)
      (configErr confirmErr : Option String) (pollFetch : Nat → FetchResult),
      (appInstallationCreate hasConfigFields confirm waitForReady
        (.ok createID) configErr confirmErr pollFetch).stateID = some createID
      ∧ (hasConfigFields = true → ∀ m, configErr = some m →
          (appInstallationCreate hasConfigFields confirm waitForReady
            (.ok createID) configErr confirmErr pollFetch).errs ≠ [])
      ∧ ((hasConfigFields = true → configErr = none) →
          confirm = true → confirmFatal confirmErr = true →
          (appInstallationCreate hasConfigFields confirm waitForReady
            (.ok createID) configErr confirmErr pollFetch).errs ≠ [])
      ∧ ((hasConfigFields = true → configErr = none) →
          confirmFatal confirmErr = false → confirm = true → waitForReady = true →
          (appInstallationCreate hasConfigFields confirm waitForReady
            (.ok createID) configErr confirmErr pollFetch).errs =
            (WaitForAppInstallationReady createID pollFetch).errs) := by
  intro hcf c w cid cfe ce pf
  cases hcf with
  | true =>
    cases cfe with
    | some m =>
      refine ⟨by simp [appInstallationCreate], ?_, ?_, ?_⟩
      · intro _ m' _
        simp [appInstallationCreate]
      · intro habs
        simpa using habs rfl
      · intro habs
        simpa using habs rfl
    | none =>
      have hred : appInstallationCreate true c w (.ok cid) none ce pf =
          appCreateConfirmPhase cid c w ce pf := by
        simp [appInstallationCreate]
      refine ⟨?_, ?_, ?_, ?_⟩
      · rw [hred]; exact (appCreateConfirmPhase_props cid c w ce pf).1
      · intro _ m hm; cases hm
      · intro _ hc hf
        rw [hred]; exact (appCreateConfirmPhase_props cid c w ce pf).2.1 hc hf
      · intro _ hok hc hw
        rw [hred]; exact (appCreateConfirmPhase_props cid c w ce pf).2.2 hok hc hw
  | false =>
    have hred : appInstallationCreate false c w (.ok cid) cfe ce pf =
        appCreateConfirmPhase cid c w ce pf := by
      simp [appInstallationCreate]
    refine ⟨?_, ?_, ?_, ?_⟩
    · rw [hred]; exact (appCreateConfirmPhase_props cid c w ce pf).1
    · intro habs; cases habs
    · intro _ hc hf
      rw [hred]; exact (appCreateConfirmPhase_props cid c w ce pf).2.1 hc hf
    · intro _ hok hc hw
      rw [hred]; exact (appCreateConfirmPhase_props cid c w ce pf).2.2 hok hc hw

/-- Witness for C9: the config update fails after creation — the id is
still in state and the failure is reported. -/
theorem C9_partial_state_preserved_witness :
    (appInstallationCreate true true true (.ok "inst-9") (some "boom") none
      (fun _ => .ok "ready")).stateID = some "inst-9"
    ∧ (appInstallationCreate true true true (.ok "inst-9") (some "boom") none
      (fun _ => .ok "ready")).errs ≠ [] :=
  ⟨(C9_partial_state_preserved true true true "inst-9" (some "boom") none
      (fun _ => .ok "ready")).1,
   (C9_partial_state_preserved true true true "inst-9" (some "boom") none
      (fun _ => .ok "ready")).2.1 rfl "boom" rfl⟩

/-- Claim C10: `wait_for_ready = true` (resp. `wait_for_confirm`) with
`confirm = false` is rejected by the config validators when both values
are known; and if the combination reaches Create or Update, the wait is
skipped with a warning instead of polling — with `confirm = false` no
wait-for-ready poll ever runs. -/
theorem C10_wait_requires_confirm :
    waitForReadyValidate (.value true) (.value false) =
      [("wait_for_ready", "Invalid configuration",
        "\"wait_for_ready\" can only be true when \"confirm\" is true.")]
    ∧ confirmWaitValidate (.value true) (.value false) =
      [("wait_for_confirm", "Invalid configuration",
        "`wait_for_confirm` can only be true when `confirm` is true.")]
    ∧ (∀ (hasConfigFields waitForReady : Bool) (createRes : Except String String)
        (configErr confirmErr : Option String) (pollFetch : Nat → FetchResult),
        (appInstallationCreate hasConfigFields false waitForReady createRes
          configErr confirmErr pollFetch).pollCalls = 0
        ∧ (waitForReady = true →
           (appInstallationCreate hasConfigFields false waitForReady createRes
             configErr confirmErr pollFetch).errs = [] →
           (appInstallationCreate hasConfigFields false waitForReady createRes
             configErr confirmErr pollFetch).warns = [waitSkippedWarn]))
    ∧ (∀ (id : String)
        (nameChanged appChanged configChanged configNonEmpty waitForReady : Bool)
        (metaRes versionRes configRes : Except String Bool)
        (confirmErr : Option String) (pollFetch : Nat → FetchResult),
        (appInstallationUpdate id nameChanged appChanged configChanged
          configNonEmpty false waitForReady metaRes versionRes configRes
          confirmErr pollFetch).pollCalls = 0
        ∧ (waitForReady = true →
           (appInstallationUpdate id nameChanged appChanged configChanged
             configNonEmpty false waitForReady metaRes versionRes configRes
             confirmErr pollFetch).errs = [] →
           (appInstallationUpdate id nameChanged appChanged configChanged
             configNonEmpty false waitForReady metaRes versionRes configRes
             confirmErr pollFetch).warns = [waitSkippedWarn])) := by
  refine ⟨rfl, rfl, ?_, ?_⟩
  · intro hcf w cr cfe ce pf
    cases cr with
    | error m =>
      exact ⟨by simp [appInstallationCreate], fun _ h => by
        simp [appInstallationCreate] at h⟩
    | ok nid =>
      have hred : appInstallationCreate hcf false w (.ok nid) cfe ce pf =
          appCreateConfirmPhase nid false w ce pf
          ∨ ∃ e, appInstallationCreate hcf false w (.ok nid) cfe ce pf =
            ⟨some nid, 0, 0, [e], []⟩ := by
        cases hcf with
        | false => exact Or.inl (by simp [appInstallationCreate])
        | true =>
          cases cfe with
          | some m =>
            exact Or.inr ⟨("Client Error",
              "Unable to update app installation config, got error: " ++ m),
              by simp [appInstallationCreate]⟩
          | none => exact Or.inl (by simp [appInstallationCreate])
      rcases hred with hred | ⟨e, hred⟩
      · rw [hred, appCreateConfirmPhase_noconfirm]
        exact ⟨(appCreateWaitPhase_noconfirm_props nid 0 w pf).1,
          fun hw _ => (appCreateWaitPhase_noconfirm_props nid 0 w pf).2.2 hw⟩
      · rw [hred]
        exact ⟨rfl, fun _ h => by simp at h⟩
  · intro id nc ac cc cne w mr vr cr ce pf
    unfold appInstallationUpdate
    cases h1 : (if nc then mr.map some else .ok none : Except String (Option Bool)) with
    | error m => exact ⟨rfl, fun _ h => by simp at h⟩
    | ok metaDraft =>
      cases h2 : (if ac then vr.map some else .ok none : Except String (Option Bool)) with
      | error m => exact ⟨rfl, fun _ h => by simp at h⟩
      | ok versionDraft =>
        cases h3 : (if cc && cne then cr.map some else .ok none :
            Except String (Option Bool)) with
        | error m => exact ⟨rfl, fun _ h => by simp at h⟩
        | ok configDraft =>
          simp only [Bool.and_false]
          exact ⟨(appCreateWaitPhase_noconfirm_props id 0 w pf).1,
            fun hw _ => (appCreateWaitPhase_noconfirm_props id 0 w pf).2.2 hw⟩

/-- Witness for C10: `wait_for_ready = true`, `confirm = false`
reaching Create — the wait is skipped with the warning and no poll
runs. -/
theorem C10_wait_requires_confirm_witness :
    (appInstallationCreate false false true (.ok "inst-10") none none
      (fun _ => .ok "ready")).pollCalls = 0
    ∧ (appInstallationCreate false false true (.ok "inst-10") none none
      (fun _ => .ok "ready")).warns = [waitSkippedWarn] :=
  ⟨(C10_wait_requires_confirm.2.2.1 false true (.ok "inst-10") none none
      (fun _ => .ok "ready")).1,
   (C10_wait_requires_confirm.2.2.1 false true (.ok "inst-10") none none
      (fun _ => .ok "ready")).2 rfl (by decide)⟩

end Flows
